import Mathlib

/-!
Verification of the `sfnResume` CDK construct (callback pattern for Step
Functions state machines).

The construct wires up:
  * a DynamoDB table keyed by `id` holding one resume task token per job id
    (the Continuation Store);
  * the pause task `putDbResumeToken`: a `dynamodb:putItem` call with
    `ConditionExpression "attribute_not_exists(id)"`, integration pattern
    WAIT_FOR_TASK_TOKEN and `resultPath` DISCARD (the Suspend Task);
  * the resume state machine `sfnMain` whose definition is
    `getResumeToken.next(sendTaskSuccess).next(deleteResumeToken)` with no
    Catch or Retry configuration (the Resume Orchestrator);
  * an EventBridge rule targeting `sfnMain` (the Completion Listener).

The embedding models the Amazon States Language semantics of the chained
states: a state's `.next` runs only after the state succeeded, an unhandled
error terminates the execution as failed, reference paths (`$.a.b`) are
resolved against the JSON state, and `resultPath` merges a task result into
the state at a single top-level key (or discards it).
-/

namespace SfnResume

/-- JSON values as far as this construct manipulates them: strings and
string-keyed objects (events, DynamoDB attribute values, task results). -/
inductive Json where
  | str : String → Json
  | obj : List (String × Json) → Json

/-- Field lookup in an object's field list (first match wins). -/
def lookupField : List (String × Json) → String → Option Json
  | [], _ => none
  | (k, v) :: rest, key => if k = key then some v else lookupField rest key

/-- Resolution of a reference path (a list of field names) against a JSON
value, as Amazon States Language path resolution does. -/
def lookupPath : Json → List String → Option Json
  | j, [] => some j
  | Json.str _, _ :: _ => none
  | Json.obj fields, k :: ks =>
    match lookupField fields k with
    | some v => lookupPath v ks
    | none => none

/-- Resolution of a path that must end at a string, as
`sfn.JsonPath.stringAt` requires. -/
def stringAt (j : Json) (path : List String) : Option String :=
  match lookupPath j path with
  | some (Json.str s) => some s
  | _ => none

/-- Replacing (or appending) a field in an object's field list. -/
def setField : List (String × Json) → String → Json → List (String × Json)
  | [], key, v => [(key, v)]
  | (k, w) :: rest, key, v =>
    if k = key then (key, v) :: rest else (k, w) :: setField rest key v

/-- Writing a result into the state at a reference path, as `resultPath`
does; intermediate objects are created when absent, and a non-object state
is left unchanged (the construct only ever writes into event objects). -/
def setPath : Json → List String → Json → Json
  | _, [], result => result
  | Json.obj fields, k :: ks, result =>
    match lookupField fields k with
    | some v => Json.obj (setField fields k (setPath v ks result))
    | none => Json.obj (setField fields k (setPath (Json.obj []) ks result))
  | j, _ :: _, _ => j

/-- Application of a `resultPath` to a state and a task result: `none`
stands for `sfn.JsonPath.DISCARD` (rendered as `ResultPath: null`, keeping
the input state), `some p` writes the result at `p`. -/
def applyResultPath : Option (List String) → Json → Json → Json
  | none, input, _ => input
  | some p, input, result => setPath input p result

/-- Splitting the character list of a JSON path body on dots, accumulator
first. -/
def splitFieldsAux : List Char → List Char → List String
  | acc, [] => [String.mk acc.reverse]
  | acc, '.' :: rest => String.mk acc.reverse :: splitFieldsAux [] rest
  | acc, c :: rest => splitFieldsAux (c :: acc) rest

/-- Splitting a JSON path body `a.b.c` into its field names. -/
def splitFields (cs : List Char) : List String :=
  splitFieldsAux [] cs

/-- Parsing a JSONPath string of the shape used by the construct (`$` or
`$.a.b...`) into the list of field names it traverses. -/
def parsePath (s : String) : Option (List String) :=
  match s.toList with
  | ['$'] => some []
  | '$' :: '.' :: rest => some (splitFields rest)
  | _ => none

/-- Resolving a configured JSONPath (such as `props.pathToIdWorkflow`)
against a JSON state, expecting a string. -/
def resolveId (p : String) (j : Json) : Option String :=
  match parsePath p with
  | some path => stringAt j path
  | none => none

/-! ### The Continuation Store (DynamoDB table keyed by `id`)

The only writer stores items of the shape `{id: {S: jobId}, token: {S: t}}`,
so the table is modelled as an association list from job id to token. -/

/-- The DynamoDB table contents: job id to stored task token. -/
abbrev Db := List (String × String)

/-- Point lookup by partition key. -/
def dbLookup : Db → String → Option String
  | [], _ => none
  | (k, v) :: rest, id => if k = id then some v else dbLookup rest id

/-- Errors the store calls of this construct can raise. -/
inductive DbError where
  | conditionalCheckFailed
deriving DecidableEq

/-- The `dynamodb:putItem` call of `putDbResumeToken` with
`ConditionExpression "attribute_not_exists(id)"`: fails without writing
when an item for the key already exists, inserts otherwise. -/
def putItemConditional (db : Db) (id token : String) : Except DbError Db :=
  match dbLookup db id with
  | some _ => Except.error DbError.conditionalCheckFailed
  | none => Except.ok ((id, token) :: db)

/-- The `dynamodb:getItem` call of `getResumeToken`: a point read, never an
error; an absent key yields no `Item`. -/
def getItem (db : Db) (id : String) : Option String :=
  dbLookup db id

/-- The `dynamodb:deleteItem` call of `deleteResumeToken`: removes the item
for the key; deleting an absent key is not an error. -/
def deleteItem : Db → String → Db
  | [], _ => []
  | (k, v) :: rest, id =>
    if k = id then deleteItem rest id else (k, v) :: deleteItem rest id

/-- The JSON the `getResumeToken` state merges at `$.getResumeToken`: the
GetItem response, holding the item's attribute map when the key exists and
nothing otherwise. -/
def getItemOutput (db : Db) (id : String) : Json :=
  match dbLookup db id with
  | some token =>
    Json.obj [("Item", Json.obj
      [ ("id", Json.obj [("S", Json.str id)]),
        ("token", Json.obj [("S", Json.str token)]) ])]
  | none => Json.obj []

/-! ### The workflow engine's task-token interface -/

/-- The engine's outstanding (still resumable) task tokens. -/
abbrev Engine := List String

/-- Membership test for an outstanding token. -/
def containsToken : Engine → String → Bool
  | [], _ => false
  | t :: rest, tok => if t = tok then true else containsToken rest tok

/-- Consumption of a token: after acceptance the token is no longer
outstanding at all, so every occurrence is removed (engine-issued task
tokens are unique, and a used token is invalid forever). -/
def eraseToken : Engine → String → Engine
  | [], _ => []
  | t :: rest, tok => if t = tok then eraseToken rest tok else t :: eraseToken rest tok

/-- Errors the engine's signal call can raise. -/
inductive SfnError where
  | taskInvalid
deriving DecidableEq

/-- The `states:sendTaskSuccess` API: accepted exactly when the token is
outstanding, and the token is consumed by acceptance; a stale, already
consumed or unknown token is rejected. -/
def sendTaskSuccessApi (eng : Engine) (token : String) : Except SfnError Engine :=
  if containsToken eng token then Except.ok (eraseToken eng token)
  else Except.error SfnError.taskInvalid

/-- The reference path `$.getResumeToken.Item.token.S` from which the
`sendTaskSuccess` state reads the task token. -/
def tokenPath : List String := ["getResumeToken", "Item", "token", "S"]

/-- The literal `Output` parameter of the `sendTaskSuccess` state:
`{staus: "resume"}` (the field name's spelling is the source's). -/
def signalOutput : Json := Json.obj [("staus", Json.str "resume")]

/-! ### The resume state machine `sfnMain`

Definition in the source:
`getResumeToken.next(sendTaskSuccess).next(deleteResumeToken)`, with no
Catch and no Retry on any state. Under Amazon States Language semantics a
state's successor runs only after the state succeeded and an unhandled
error terminates the whole execution as failed. -/

/-- The three states of `sfnMain`, in definition order. -/
inductive StepTag where
  | lookup
  | signal
  | delete
deriving DecidableEq

/-- The ways an execution of `sfnMain` can fail (each is an unhandled error
terminating the execution, since no state has a Catch). -/
inductive FailCause where
  /-- States.Runtime: `props.pathToIdWorkflow` does not resolve to a string
  in the input event at the `getResumeToken` state. -/
  | lookupIdPathError
  /-- States.Runtime: `$.getResumeToken.Item.token.S` is absent when the
  `sendTaskSuccess` state builds its parameters (no stored item). -/
  | tokenPathError
  /-- The engine rejected the `states:sendTaskSuccess` call (stale, already
  consumed or unknown token). -/
  | signalRejected
  /-- States.Runtime: `props.pathToIdWorkflow` does not resolve to a string
  at the `deleteResumeToken` state. -/
  | deleteIdPathError
deriving DecidableEq

/-- Terminal status of one `sfnMain` execution. -/
inductive Outcome where
  | succeeded : Json → Outcome
  | failed : FailCause → Outcome

/-- Whether an outcome is a successful termination. -/
def Outcome.isSucceeded : Outcome → Bool
  | Outcome.succeeded _ => true
  | Outcome.failed _ => false

/-- Whether an outcome is a failed termination with the given cause. -/
def Outcome.failedWith : Outcome → FailCause → Bool
  | Outcome.failed c, c' => c = c'
  | Outcome.succeeded _, _ => false

/-- Everything observable about one execution of `sfnMain`: its terminal
status, the final store and engine, the states entered in order, the
signal calls made and accepted, the payloads passed to the engine, and the
job ids the lookup and delete steps used. -/
structure RunResult where
  outcome : Outcome
  db : Db
  engine : Engine
  entered : List StepTag
  signalCalls : Nat
  signalAccepted : Nat
  signalPayloads : List Json
  lookedUpId : Option String
  deletedId : Option String

/-- One execution of `sfnMain` on an input event, given the store and the
engine's outstanding tokens.

State 1, `getResumeToken` (DynamoGetItem, `resultPath "$.getResumeToken"`):
resolves `props.pathToIdWorkflow` in the event, reads the item, merges the
response at `$.getResumeToken`.

State 2, `sendTaskSuccess` (CallAwsService `sfn:sendTaskSuccess`,
`resultPath "$.sendTaskSuccess"`): reads the token from
`$.getResumeToken.Item.token.S`, calls the engine with the literal output
`{staus: "resume"}`, merges the (empty) response at `$.sendTaskSuccess`.

State 3, `deleteResumeToken` (DynamoDeleteItem, default `resultPath`):
resolves `props.pathToIdWorkflow` again in the current state and deletes
the item. -/
def runSfnMain (p : String) (input : Json) (db : Db) (eng : Engine) : RunResult :=
  match resolveId p input with
  | none =>
    { outcome := Outcome.failed FailCause.lookupIdPathError, db := db, engine := eng,
      entered := [StepTag.lookup], signalCalls := 0, signalAccepted := 0,
      signalPayloads := [], lookedUpId := none, deletedId := none }
  | some id =>
    let state1 := applyResultPath (some ["getResumeToken"]) input (getItemOutput db id)
    match stringAt state1 tokenPath with
    | none =>
      { outcome := Outcome.failed FailCause.tokenPathError, db := db, engine := eng,
        entered := [StepTag.lookup, StepTag.signal], signalCalls := 0, signalAccepted := 0,
        signalPayloads := [], lookedUpId := some id, deletedId := none }
    | some token =>
      match sendTaskSuccessApi eng token with
      | Except.error _ =>
        { outcome := Outcome.failed FailCause.signalRejected, db := db, engine := eng,
          entered := [StepTag.lookup, StepTag.signal], signalCalls := 1, signalAccepted := 0,
          signalPayloads := [signalOutput], lookedUpId := some id, deletedId := none }
      | Except.ok eng2 =>
        let state2 := applyResultPath (some ["sendTaskSuccess"]) state1 (Json.obj [])
        match resolveId p state2 with
        | none =>
          { outcome := Outcome.failed FailCause.deleteIdPathError, db := db, engine := eng2,
            entered := [StepTag.lookup, StepTag.signal, StepTag.delete],
            signalCalls := 1, signalAccepted := 1,
            signalPayloads := [signalOutput], lookedUpId := some id, deletedId := none }
        | some id2 =>
          { outcome := Outcome.succeeded (applyResultPath (some []) state2 (Json.obj [])),
            db := deleteItem db id2, engine := eng2,
            entered := [StepTag.lookup, StepTag.signal, StepTag.delete],
            signalCalls := 1, signalAccepted := 1,
            signalPayloads := [signalOutput], lookedUpId := some id, deletedId := some id2 }

/-! ### The pause task `putDbResumeToken`

A `dynamodb:putItem` call with `ConditionExpression
"attribute_not_exists(id)"`, integration pattern WAIT_FOR_TASK_TOKEN and
`resultPath` DISCARD, placed inside the caller's workflow. The task carries
no Retry configuration, so a `ConditionalCheckFailedException` propagates
as an unhandled error to the caller's execution. -/

/-- Terminal status of one invocation of the pause task. -/
inductive PauseOutcome where
  /-- States.Runtime: `props.pathToIdPauseTask` does not resolve to a
  string in the workflow state. -/
  | failedIdPathError
  /-- The conditional write failed because an item for the job id already
  exists; the error propagates to the caller's execution. -/
  | failedAlreadyExists
  /-- The token was stored and the execution is parked awaiting a
  `sendTaskSuccess` for the stored token. -/
  | paused : String → PauseOutcome
deriving DecidableEq

/-- Everything observable about one invocation of the pause task. -/
structure PauseResult where
  outcome : PauseOutcome
  db : Db
  putAttempts : Nat
deriving DecidableEq

/-- One invocation of the pause task on the caller's workflow state, with
the task token the engine issued for this invocation. The state has no
Retry array, so the conditional write is attempted exactly once. -/
def runPauseTask (p : String) (state : Json) (taskToken : String) (db : Db) : PauseResult :=
  match resolveId p state with
  | none => { outcome := PauseOutcome.failedIdPathError, db := db, putAttempts := 0 }
  | some id =>
    match putItemConditional db id taskToken with
    | Except.error _ =>
      { outcome := PauseOutcome.failedAlreadyExists, db := db, putAttempts := 1 }
    | Except.ok db2 =>
      { outcome := PauseOutcome.paused taskToken, db := db2, putAttempts := 1 }

/-- The `resultPath` of the pause task: `sfn.JsonPath.DISCARD`. -/
def pauseTaskResultPath : Option (List String) := none

/-- The workflow state after the parked execution is resumed: the resume
payload delivered through `sendTaskSuccess` is merged according to the
task's `resultPath`. -/
def pauseTaskOutput (stateBefore : Json) (resumePayload : Json) : Json :=
  applyResultPath pauseTaskResultPath stateBefore resumePayload

/-! ### Two concurrent executions of `sfnMain`

Each EventBridge delivery starts an independent execution of `sfnMain`;
under at-least-once delivery two executions can run concurrently for the
same job id, sharing only the store and the engine. Each execution is a
sequence of three atomic states; an interleaving is a schedule saying which
execution performs its next state. -/

/-- Program counter of one in-flight `sfnMain` execution. -/
inductive PC where
  | atLookup
  | atSignal
  | atDelete
  | terminalOk
  | terminalFailed : FailCause → PC
deriving DecidableEq

/-- Whether an execution has reached a terminal state. -/
def PC.isTerminal : PC → Bool
  | PC.terminalOk => true
  | PC.terminalFailed _ => true
  | _ => false

/-- Number of states an execution can still enter. -/
def PC.rank : PC → Nat
  | PC.atLookup => 3
  | PC.atSignal => 2
  | PC.atDelete => 1
  | PC.terminalOk => 0
  | PC.terminalFailed _ => 0

/-- One in-flight `sfnMain` execution: its program counter, its private
JSON state, and how many signal calls it has made and had accepted. -/
structure CRun where
  pc : PC
  state : Json
  calls : Nat
  accepted : Nat

/-- The shared configuration of two concurrent `sfnMain` executions. -/
structure CConfig where
  r1 : CRun
  r2 : CRun
  db : Db
  eng : Engine

/-- One atomic state of one `sfnMain` execution, acting on the shared
store and engine; the transitions are exactly those of `runSfnMain`. -/
def stepRun (p : String) (r : CRun) (db : Db) (eng : Engine) : CRun × Db × Engine :=
  match r.pc with
  | PC.atLookup =>
    (match resolveId p r.state with
     | none => ({ r with pc := PC.terminalFailed FailCause.lookupIdPathError }, db, eng)
     | some id =>
       ({ r with
            pc := PC.atSignal
            state := applyResultPath (some ["getResumeToken"]) r.state (getItemOutput db id) },
        db, eng))
  | PC.atSignal =>
    (match stringAt r.state tokenPath with
     | none => ({ r with pc := PC.terminalFailed FailCause.tokenPathError }, db, eng)
     | some token =>
       match sendTaskSuccessApi eng token with
       | Except.error _ =>
         ({ r with
              pc := PC.terminalFailed FailCause.signalRejected
              calls := r.calls + 1 },
          db, eng)
       | Except.ok eng2 =>
         ({ r with
              pc := PC.atDelete
              calls := r.calls + 1
              accepted := r.accepted + 1
              state := applyResultPath (some ["sendTaskSuccess"]) r.state (Json.obj []) },
          db, eng2))
  | PC.atDelete =>
    (match resolveId p r.state with
     | none => ({ r with pc := PC.terminalFailed FailCause.deleteIdPathError }, db, eng)
     | some id => ({ r with pc := PC.terminalOk }, deleteItem db id, eng))
  | _ => (r, db, eng)

/-- One scheduling step: `true` lets execution 1 act, `false` execution 2. -/
def schedStep (p : String) (cfg : CConfig) (b : Bool) : CConfig :=
  if b then
    let s := stepRun p cfg.r1 cfg.db cfg.eng
    { cfg with r1 := s.1, db := s.2.1, eng := s.2.2 }
  else
    let s := stepRun p cfg.r2 cfg.db cfg.eng
    { cfg with r2 := s.1, db := s.2.1, eng := s.2.2 }

/-- Running a whole schedule of interleaved steps. -/
def exec (p : String) (cfg : CConfig) (sched : List Bool) : CConfig :=
  sched.foldl (schedStep p) cfg

/-- The configuration in which two freshly triggered executions of
`sfnMain` start on the same input event. -/
def initConfig (ev : Json) (db : Db) (eng : Engine) : CConfig :=
  { r1 := { pc := PC.atLookup, state := ev, calls := 0, accepted := 0 },
    r2 := { pc := PC.atLookup, state := ev, calls := 0, accepted := 0 },
    db := db, eng := eng }

/-! ### Helper lemmas -/

theorem lookupField_setField_self (fields : List (String × Json)) (k : String) (v : Json) :
    lookupField (setField fields k v) k = some v := by
  induction fields with
  | nil => simp [setField, lookupField]
  | cons hd tl ih =>
    obtain ⟨k', w⟩ := hd
    by_cases h : k' = k
    · simp [setField, h, lookupField]
    · simp [setField, h, lookupField, ih]

theorem lookupField_setField_ne (fields : List (String × Json)) (k k' : String) (v : Json)
    (h : k' ≠ k) : lookupField (setField fields k v) k' = lookupField fields k' := by
  induction fields with
  | nil => simp [setField, lookupField, Ne.symm h]
  | cons hd tl ih =>
    obtain ⟨k0, w⟩ := hd
    by_cases h0 : k0 = k
    · subst h0
      simp [setField, lookupField, Ne.symm h]
    · simp [setField, h0, lookupField, ih]

theorem lookupPath_setPath_ne (s res : Json) (k k' : String) (ks' : List String)
    (h : k' ≠ k) :
    lookupPath (setPath s [k] res) (k' :: ks') = lookupPath s (k' :: ks') := by
  cases s with
  | str v => simp [setPath, lookupPath]
  | obj fields =>
    cases hf : lookupField fields k with
    | none => simp [setPath, hf, lookupPath, lookupField_setField_ne fields k k' _ h]
    | some w => simp [setPath, hf, lookupPath, lookupField_setField_ne fields k k' _ h]

theorem stringAt_setPath_ne (s res : Json) (k k' : String) (ks' : List String)
    (h : k' ≠ k) :
    stringAt (setPath s [k] res) (k' :: ks') = stringAt s (k' :: ks') := by
  simp [stringAt, lookupPath_setPath_ne s res k k' ks' h]

theorem dbLookup_deleteItem_self (db : Db) (id : String) :
    dbLookup (deleteItem db id) id = none := by
  induction db with
  | nil => simp [deleteItem, dbLookup]
  | cons hd tl ih =>
    obtain ⟨k, v⟩ := hd
    by_cases h : k = id
    · simp [deleteItem, h, ih]
    · simp [deleteItem, h, dbLookup, ih]

theorem getItemOutput_of_absent (db : Db) (id : String) (h : dbLookup db id = none) :
    getItemOutput db id = Json.obj [] := by
  simp [getItemOutput, h]

theorem getItemOutput_of_present (db : Db) (id token : String)
    (h : dbLookup db id = some token) :
    getItemOutput db id =
      Json.obj [("Item", Json.obj
        [ ("id", Json.obj [("S", Json.str id)]),
          ("token", Json.obj [("S", Json.str token)]) ])] := by
  simp [getItemOutput, h]

theorem stringAt_tokenPath_of_empty_item (ev : Json) :
    stringAt (setPath ev ["getResumeToken"] (Json.obj [])) tokenPath = none := by
  cases ev with
  | str v => simp [setPath, tokenPath, stringAt, lookupPath]
  | obj fields =>
    cases hf : lookupField fields "getResumeToken" with
    | none =>
      simp [setPath, hf, tokenPath, stringAt, lookupPath, lookupField_setField_self,
        lookupField]
    | some w =>
      simp [setPath, hf, tokenPath, stringAt, lookupPath, lookupField_setField_self,
        lookupField]

theorem containsToken_eraseToken_self (eng : Engine) (tok : String) :
    containsToken (eraseToken eng tok) tok = false := by
  induction eng with
  | nil => simp [eraseToken, containsToken]
  | cons t rest ih =>
    by_cases ht : t = tok
    · simp [eraseToken, ht, ih]
    · simp [eraseToken, ht, containsToken, ih]

theorem dbLookup_deleteItem_ne (db : Db) (k id : String) (h : k ≠ id) :
    dbLookup (deleteItem db k) id = dbLookup db id := by
  induction db with
  | nil => simp [deleteItem]
  | cons hd tl ih =>
    obtain ⟨k0, v⟩ := hd
    by_cases h0 : k0 = k
    · subst h0
      simp [deleteItem, dbLookup, h, ih]
    · simp [deleteItem, h0, dbLookup, ih]

theorem dbLookup_deleteItem_cases (db : Db) (k id : String) :
    dbLookup (deleteItem db k) id = none ∨
    dbLookup (deleteItem db k) id = dbLookup db id := by
  by_cases h : k = id
  · subst h
    exact Or.inl (dbLookup_deleteItem_self db k)
  · exact Or.inr (dbLookup_deleteItem_ne db k id h)

/-- What the signal state will read from `$.getResumeToken.Item.token.S`
after the lookup state merged the GetItem response: nothing, or exactly
the token stored in the table under the looked-up key. -/
theorem tokenRead_after_lookup (ev : Json) (db : Db) (id : String) :
    stringAt (applyResultPath (some ["getResumeToken"]) ev (getItemOutput db id))
        tokenPath = none ∨
    stringAt (applyResultPath (some ["getResumeToken"]) ev (getItemOutput db id))
        tokenPath = dbLookup db id := by
  cases hdb : dbLookup db id with
  | none =>
    left
    have h1 : getItemOutput db id = Json.obj [] := getItemOutput_of_absent db id hdb
    rw [h1]
    simp only [applyResultPath]
    exact stringAt_tokenPath_of_empty_item ev
  | some t =>
    cases ev with
    | str v => left; simp [applyResultPath, setPath, tokenPath, stringAt, lookupPath]
    | obj fields =>
      right
      have h1 := getItemOutput_of_present db id t hdb
      rw [h1]
      simp only [applyResultPath]
      cases hf : lookupField fields "getResumeToken" with
      | none =>
        simp [setPath, hf, tokenPath, stringAt, lookupPath, lookupField_setField_self,
          lookupField]
      | some w =>
        simp [setPath, hf, tokenPath, stringAt, lookupPath, lookupField_setField_self,
          lookupField]

/-! ### Shared concrete fixtures for witnesses and counterexamples -/

/-- A sample completion event carrying `jobId "job-42"` under `$.detail`. -/
def sampleEvent : Json := Json.obj [("detail", Json.obj [("jobId", Json.str "job-42")])]

/-- A sample `props.pathToIdWorkflow`. -/
def samplePath : String := "$.detail.jobId"

/-! ### Claim theorems -/

/-- Claim C1: if a record for a `jobId` is already present in the store, a
second insert for the same `jobId` is rejected with
`ConditionalCheckFailed` (AlreadyExists) and the stored record, in
particular its continuation handle, is unchanged; the insert never
overwrites. -/
theorem insert_duplicate_rejected (p : String) (s : Json) (tok : String) (db : Db)
    (id h : String) (hid : resolveId p s = some id)
    (hstored : dbLookup db id = some h) :
    (runPauseTask p s tok db).outcome = PauseOutcome.failedAlreadyExists ∧
    (runPauseTask p s tok db).db = db ∧
    dbLookup (runPauseTask p s tok db).db id = some h := by
  simp [runPauseTask, hid, putItemConditional, hstored]

/-- Witness for C1 at a concrete duplicate insert. -/
theorem insert_duplicate_rejected_witness :
    (runPauseTask "$.id" (Json.obj [("id", Json.str "job-42")]) "h2"
        [("job-42", "h1")]).outcome = PauseOutcome.failedAlreadyExists ∧
    (runPauseTask "$.id" (Json.obj [("id", Json.str "job-42")]) "h2"
        [("job-42", "h1")]).db = [("job-42", "h1")] ∧
    dbLookup (runPauseTask "$.id" (Json.obj [("id", Json.str "job-42")]) "h2"
        [("job-42", "h1")]).db "job-42" = some "h1" :=
  insert_duplicate_rejected "$.id" (Json.obj [("id", Json.str "job-42")]) "h2"
    [("job-42", "h1")] "job-42" "h1" (by decide) (by decide)

/-- Claim C5: round trip — after a successful conditional insert of
`(jobId, h)`, `Get(jobId)` returns `h`, and after a subsequent
`Delete(jobId)`, `Get(jobId)` returns `NotFound`. -/
theorem store_round_trip (db : Db) (id h : String) (hfree : dbLookup db id = none) :
    putItemConditional db id h = Except.ok ((id, h) :: db) ∧
    getItem ((id, h) :: db) id = some h ∧
    getItem (deleteItem ((id, h) :: db) id) id = none := by
  refine ⟨by simp [putItemConditional, hfree], by simp [getItem, dbLookup], ?_⟩
  simp [getItem, dbLookup_deleteItem_self]

/-- Witness for C5 at a concrete round trip. -/
theorem store_round_trip_witness :
    putItemConditional [] "job-42" "h1" = Except.ok [("job-42", "h1")] ∧
    getItem [("job-42", "h1")] "job-42" = some "h1" ∧
    getItem (deleteItem [("job-42", "h1")] "job-42") "job-42" = none :=
  store_round_trip [] "job-42" "h1" (by decide)

/-- Claim C7: when the pause task's conditional insert hits an existing
record, the failure surfaces to the caller's execution as a fatal error
(`failedAlreadyExists`) and the insert is attempted exactly once — the
task configures no Retry, so it is never retried by this system. -/
theorem duplicate_insert_fatal_not_retried (p : String) (s : Json) (tok : String)
    (db : Db) (id h : String) (hid : resolveId p s = some id)
    (hstored : dbLookup db id = some h) :
    (runPauseTask p s tok db).outcome = PauseOutcome.failedAlreadyExists ∧
    (runPauseTask p s tok db).putAttempts = 1 := by
  simp [runPauseTask, hid, putItemConditional, hstored]

/-- Witness for C7 at a concrete duplicate insert. -/
theorem duplicate_insert_fatal_not_retried_witness :
    (runPauseTask "$.id" (Json.obj [("id", Json.str "job-7")]) "t2"
        [("job-7", "t1")]).outcome = PauseOutcome.failedAlreadyExists ∧
    (runPauseTask "$.id" (Json.obj [("id", Json.str "job-7")]) "t2"
        [("job-7", "t1")]).putAttempts = 1 :=
  duplicate_insert_fatal_not_retried "$.id" (Json.obj [("id", Json.str "job-7")]) "t2"
    [("job-7", "t1")] "job-7" "t1" (by decide) (by decide)

/-- Claim C10: the pause task's `resultPath` is DISCARD, so the workflow
state right after the task resumes equals the state right before it, for
every resume payload; the payload is never merged into the application
state. -/
theorem pause_task_discards_result (s payload : Json) :
    pauseTaskOutput s payload = s := rfl

/-- Claim C8: every payload the resume state machine passes to the
engine's signal call is the fixed literal `{staus: "resume"}`; it does not
depend on the triggering event, the store or the engine. -/
theorem resume_payload_fixed (p : String) (input : Json) (db : Db) (eng : Engine)
    (pay : Json) (hmem : pay ∈ (runSfnMain p input db eng).signalPayloads) :
    pay = Json.obj [("staus", Json.str "resume")] := by
  cases hres : resolveId p input with
  | none => simp [runSfnMain, hres] at hmem
  | some id =>
    cases htok : stringAt (applyResultPath (some ["getResumeToken"]) input
        (getItemOutput db id)) tokenPath with
    | none => simp [runSfnMain, hres, htok] at hmem
    | some token =>
      cases hsend : sendTaskSuccessApi eng token with
      | error e =>
        simp [runSfnMain, hres, htok, hsend] at hmem
        simp [hmem, signalOutput]
      | ok eng2 =>
        cases hdel : resolveId p (applyResultPath (some ["sendTaskSuccess"])
            (applyResultPath (some ["getResumeToken"]) input (getItemOutput db id))
            (Json.obj [])) with
        | none =>
          simp [runSfnMain, hres, htok, hsend, hdel] at hmem
          simp [hmem, signalOutput]
        | some id2 =>
          simp [runSfnMain, hres, htok, hsend, hdel] at hmem
          simp [hmem, signalOutput]

/-- Witness for C8 at a concrete accepted signal. -/
theorem resume_payload_fixed_witness :
    signalOutput = Json.obj [("staus", Json.str "resume")] :=
  resume_payload_fixed samplePath sampleEvent [("job-42", "h1")] ["h1"] signalOutput
    (List.Mem.head _)

/-- Claim C4: the resume state machine enters its states in the fixed
order lookup, signal, delete and nothing else; the signal state is entered
exactly when the lookup state succeeded (resolved a job id), and the
delete state is entered exactly when the signal call was accepted. -/
theorem resume_steps_ordered (p : String) (input : Json) (db : Db) (eng : Engine) :
    ((runSfnMain p input db eng).entered = [StepTag.lookup] ∨
     (runSfnMain p input db eng).entered = [StepTag.lookup, StepTag.signal] ∨
     (runSfnMain p input db eng).entered =
       [StepTag.lookup, StepTag.signal, StepTag.delete]) ∧
    (StepTag.signal ∈ (runSfnMain p input db eng).entered ↔
      ((runSfnMain p input db eng).lookedUpId).isSome = true) ∧
    (StepTag.delete ∈ (runSfnMain p input db eng).entered ↔
      (runSfnMain p input db eng).signalAccepted = 1) := by
  cases hres : resolveId p input with
  | none => simp [runSfnMain, hres]
  | some id =>
    cases htok : stringAt (applyResultPath (some ["getResumeToken"]) input
        (getItemOutput db id)) tokenPath with
    | none => simp [runSfnMain, hres, htok]
    | some token =>
      cases hsend : sendTaskSuccessApi eng token with
      | error e => simp [runSfnMain, hres, htok, hsend]
      | ok eng2 =>
        cases hdel : resolveId p (applyResultPath (some ["sendTaskSuccess"])
            (applyResultPath (some ["getResumeToken"]) input (getItemOutput db id))
            (Json.obj [])) with
        | none => simp [runSfnMain, hres, htok, hsend, hdel]
        | some id2 => simp [runSfnMain, hres, htok, hsend, hdel]

/-- Counterexample to claim C2 as stated: with a stored record but a stale
engine token, the signal call is made and rejected, yet the delete state is
never entered — the execution terminates failed at the signal state and
the record (and its handle) is still in the store. -/
theorem resume_rejected_record_remains_cex :
    (runSfnMain samplePath sampleEvent [("job-42", "h1")] []).signalCalls = 1 ∧
    (runSfnMain samplePath sampleEvent [("job-42", "h1")] []).outcome.failedWith
      FailCause.signalRejected = true ∧
    (runSfnMain samplePath sampleEvent [("job-42", "h1")] []).entered =
      [StepTag.lookup, StepTag.signal] ∧
    (runSfnMain samplePath sampleEvent [("job-42", "h1")] []).db = [("job-42", "h1")] ∧
    dbLookup (runSfnMain samplePath sampleEvent [("job-42", "h1")] []).db "job-42" =
      some "h1" := by
  decide

/-- Claim C2 as amended: the delete state runs exactly when the engine
accepted the signal; whenever the signal was not accepted (including a
made-but-rejected call), the execution terminates without the delete and
the store and engine are unchanged. -/
theorem resume_delete_iff_signal_accepted (p : String) (input : Json) (db : Db)
    (eng : Engine) :
    (StepTag.delete ∈ (runSfnMain p input db eng).entered ↔
      (runSfnMain p input db eng).signalAccepted = 1) ∧
    ((runSfnMain p input db eng).signalAccepted = 0 →
      (runSfnMain p input db eng).db = db ∧
      (runSfnMain p input db eng).engine = eng) := by
  cases hres : resolveId p input with
  | none => simp [runSfnMain, hres]
  | some id =>
    cases htok : stringAt (applyResultPath (some ["getResumeToken"]) input
        (getItemOutput db id)) tokenPath with
    | none => simp [runSfnMain, hres, htok]
    | some token =>
      cases hsend : sendTaskSuccessApi eng token with
      | error e => simp [runSfnMain, hres, htok, hsend]
      | ok eng2 =>
        cases hdel : resolveId p (applyResultPath (some ["sendTaskSuccess"])
            (applyResultPath (some ["getResumeToken"]) input (getItemOutput db id))
            (Json.obj [])) with
        | none => simp [runSfnMain, hres, htok, hsend, hdel]
        | some id2 => simp [runSfnMain, hres, htok, hsend, hdel]

/-- Witness for the amended C2 at the concrete rejected-signal scenario. -/
theorem resume_delete_iff_signal_accepted_witness :
    (StepTag.delete ∈ (runSfnMain samplePath sampleEvent [("job-42", "h1")] []).entered ↔
      (runSfnMain samplePath sampleEvent [("job-42", "h1")] []).signalAccepted = 1) ∧
    ((runSfnMain samplePath sampleEvent [("job-42", "h1")] []).signalAccepted = 0 →
      (runSfnMain samplePath sampleEvent [("job-42", "h1")] []).db = [("job-42", "h1")] ∧
      (runSfnMain samplePath sampleEvent [("job-42", "h1")] []).engine = []) :=
  resume_delete_iff_signal_accepted samplePath sampleEvent [("job-42", "h1")] []

/-- Modelled from the spec: the §4.4 state machine's `SKIPPED` terminal
state — a resume attempt that ends as a graceful no-op, "not treated as a
crash": the execution terminates successfully and made no signal call. The
source state machine has no such state; this predicate names what the spec
asserts so it can be compared with what the code does. -/
def reachesSkipped (r : RunResult) : Prop :=
  r.signalCalls = 0 ∧ r.outcome.isSucceeded = true

/-- Counterexample to claim C3 as stated: for a `jobId` with no record the
execution does not reach a `SKIPPED`-like graceful terminal state — it
terminates as a failed execution (States.Runtime while resolving
`$.getResumeToken.Item.token.S`), although indeed no signal call is made
and the store is untouched. -/
theorem resume_notfound_not_skipped_cex :
    ¬ reachesSkipped (runSfnMain samplePath sampleEvent [] ["h1"]) ∧
    (runSfnMain samplePath sampleEvent [] ["h1"]).outcome.failedWith
      FailCause.tokenPathError = true ∧
    (runSfnMain samplePath sampleEvent [] ["h1"]).signalCalls = 0 ∧
    (runSfnMain samplePath sampleEvent [] ["h1"]).db = [] := by
  unfold reachesSkipped
  decide

/-- Claim C3 as amended: for every `jobId` with no record in the store, a
resume attempt terminates as a failed execution at the signal state's
input processing, without calling the engine's signal API, and leaves the
store (and engine) unaffected. -/
theorem resume_notfound_fails_before_signal (p : String) (input : Json) (db : Db)
    (eng : Engine) (id : String) (hid : resolveId p input = some id)
    (habsent : dbLookup db id = none) :
    (runSfnMain p input db eng).outcome.failedWith FailCause.tokenPathError = true ∧
    (runSfnMain p input db eng).signalCalls = 0 ∧
    (runSfnMain p input db eng).db = db ∧
    (runSfnMain p input db eng).engine = eng ∧
    (runSfnMain p input db eng).entered = [StepTag.lookup, StepTag.signal] := by
  have h1 : getItemOutput db id = Json.obj [] := getItemOutput_of_absent db id habsent
  have h2 : stringAt (applyResultPath (some ["getResumeToken"]) input
      (getItemOutput db id)) tokenPath = none := by
    rw [h1]
    simp only [applyResultPath]
    exact stringAt_tokenPath_of_empty_item input
  simp [runSfnMain, hid, h2, Outcome.failedWith]

/-- Witness for the amended C3 at a concrete absent record. -/
theorem resume_notfound_fails_before_signal_witness :
    (runSfnMain samplePath sampleEvent [] ["h1"]).outcome.failedWith
      FailCause.tokenPathError = true ∧
    (runSfnMain samplePath sampleEvent [] ["h1"]).signalCalls = 0 ∧
    (runSfnMain samplePath sampleEvent [] ["h1"]).db = [] ∧
    (runSfnMain samplePath sampleEvent [] ["h1"]).engine = ["h1"] ∧
    (runSfnMain samplePath sampleEvent [] ["h1"]).entered =
      [StepTag.lookup, StepTag.signal] :=
  resume_notfound_fails_before_signal samplePath sampleEvent [] ["h1"] "job-42"
    (by decide) (by decide)

/-- Claim C9: the lookup and signal states write their results only at the
dedicated top-level fields `getResumeToken` and `sendTaskSuccess`, leaving
every other top-level field of the event unchanged; consequently, when
`props.pathToIdWorkflow` starts at any other field, the delete state
resolves the very same job id as the lookup state and deletes the record
it looked up. -/
theorem resume_frame_preserves_event (p : String) (ev : Json) (db : Db) (eng : Engine)
    (k : String) (ks : List String) (hp : parsePath p = some (k :: ks))
    (hk1 : k ≠ "getResumeToken") (hk2 : k ≠ "sendTaskSuccess") :
    (∀ (s res : Json) (k0 k' : String) (ks' : List String), k' ≠ k0 →
      lookupPath (setPath s [k0] res) (k' :: ks') = lookupPath s (k' :: ks')) ∧
    ((runSfnMain p ev db eng).signalAccepted = 1 →
      (runSfnMain p ev db eng).deletedId = (runSfnMain p ev db eng).lookedUpId ∧
      (runSfnMain p ev db eng).lookedUpId = stringAt ev (k :: ks)) := by
  refine ⟨fun s res k0 k' ks' hne => lookupPath_setPath_ne s res k0 k' ks' hne, ?_⟩
  have hres_eq : resolveId p ev = stringAt ev (k :: ks) := by simp [resolveId, hp]
  cases hres : stringAt ev (k :: ks) with
  | none =>
    have hnone : resolveId p ev = none := by rw [hres_eq, hres]
    simp [runSfnMain, hnone]
  | some id =>
    have hido : resolveId p ev = some id := by rw [hres_eq, hres]
    have hstate1 : stringAt (applyResultPath (some ["getResumeToken"]) ev
        (getItemOutput db id)) (k :: ks) = some id := by
      simp only [applyResultPath]
      rw [stringAt_setPath_ne ev (getItemOutput db id) "getResumeToken" k ks hk1, hres]
    have hstate2 : stringAt (applyResultPath (some ["sendTaskSuccess"])
        (applyResultPath (some ["getResumeToken"]) ev (getItemOutput db id))
        (Json.obj [])) (k :: ks) = some id := by
      simp only [applyResultPath]
      rw [stringAt_setPath_ne _ (Json.obj []) "sendTaskSuccess" k ks hk2]
      simpa [applyResultPath] using hstate1
    have hdel : resolveId p (applyResultPath (some ["sendTaskSuccess"])
        (applyResultPath (some ["getResumeToken"]) ev (getItemOutput db id))
        (Json.obj [])) = some id := by
      simp [resolveId, hp, hstate2]
    cases htok : stringAt (applyResultPath (some ["getResumeToken"]) ev
        (getItemOutput db id)) tokenPath with
    | none => simp [runSfnMain, hido, htok]
    | some token =>
      cases hsend : sendTaskSuccessApi eng token with
      | error e => simp [runSfnMain, hido, htok, hsend]
      | ok eng2 => simp [runSfnMain, hido, htok, hsend, hdel, hres]

/-- Witness for C9 at the concrete happy-path scenario: the delete state
removed exactly the record the lookup state read, keyed by the job id of
the unmodified event. -/
theorem resume_frame_preserves_event_witness :
    (runSfnMain samplePath sampleEvent [("job-42", "h1")] ["h1"]).deletedId =
      (runSfnMain samplePath sampleEvent [("job-42", "h1")] ["h1"]).lookedUpId ∧
    (runSfnMain samplePath sampleEvent [("job-42", "h1")] ["h1"]).lookedUpId =
      stringAt sampleEvent ("detail" :: ["jobId"]) :=
  (resume_frame_preserves_event samplePath sampleEvent [("job-42", "h1")] ["h1"]
    "detail" ["jobId"] (by decide) (by decide) (by decide)).2 (by decide)

/-! ### Lemmas about the concurrent semantics -/

theorem PC.isTerminal_iff_rank (pc : PC) : pc.isTerminal = true ↔ pc.rank = 0 := by
  cases pc <;> simp [PC.isTerminal, PC.rank]

theorem stepRun_fix_of_terminal (p : String) (r : CRun) (db : Db) (eng : Engine)
    (h : r.pc.isTerminal = true) : stepRun p r db eng = (r, db, eng) := by
  cases hpc : r.pc <;> simp [hpc, PC.isTerminal] at h ⊢ <;> simp [stepRun, hpc]

theorem stepRun_rank_decrease (p : String) (r : CRun) (db : Db) (eng : Engine)
    (h : r.pc.isTerminal = false) :
    ((stepRun p r db eng).1.pc).rank < (r.pc).rank := by
  cases hpc : r.pc <;> simp [hpc, PC.isTerminal] at h ⊢ <;>
    simp only [stepRun, hpc] <;>
    (repeat' split) <;> simp [PC.rank]

/-- A run is past its signal state with a delete pending or done only if
its signal was accepted. -/
def CRun.pastSignal (r : CRun) : Prop :=
  (r.pc = PC.atDelete ∨ r.pc = PC.terminalOk) → 1 ≤ r.accepted

theorem stepRun_pastSignal (p : String) (r : CRun) (db : Db) (eng : Engine)
    (h : r.pastSignal) : ((stepRun p r db eng).1).pastSignal := by
  cases hpc : r.pc with
  | atLookup =>
    simp only [stepRun, hpc]
    split <;> simp [CRun.pastSignal]
  | atSignal =>
    simp only [stepRun, hpc]
    (repeat' split) <;> simp [CRun.pastSignal] <;> omega
  | atDelete =>
    have hacc : 1 ≤ r.accepted := h (Or.inl hpc)
    simp only [stepRun, hpc]
    split <;> simp [CRun.pastSignal, hacc]
  | terminalOk =>
    have hacc : 1 ≤ r.accepted := h (Or.inr hpc)
    simp [stepRun, hpc, CRun.pastSignal, hacc]
  | terminalFailed c =>
    simp [stepRun, hpc, CRun.pastSignal]

theorem exec_cons (p : String) (cfg : CConfig) (b : Bool) (rest : List Bool) :
    exec p cfg (b :: rest) = exec p (schedStep p cfg b) rest := rfl

theorem schedStep_true_r1 (p : String) (cfg : CConfig) :
    (schedStep p cfg true).r1 = (stepRun p cfg.r1 cfg.db cfg.eng).1 := by
  simp [schedStep]

theorem schedStep_true_r2 (p : String) (cfg : CConfig) :
    (schedStep p cfg true).r2 = cfg.r2 := by
  simp [schedStep]

theorem schedStep_false_r1 (p : String) (cfg : CConfig) :
    (schedStep p cfg false).r1 = cfg.r1 := by
  simp [schedStep]

theorem schedStep_false_r2 (p : String) (cfg : CConfig) :
    (schedStep p cfg false).r2 = (stepRun p cfg.r2 cfg.db cfg.eng).1 := by
  simp [schedStep]

theorem exec_rank_r1 (p : String) (sched : List Bool) : ∀ cfg : CConfig,
    ((exec p cfg sched).r1.pc).rank ≤ (cfg.r1.pc).rank - sched.count true := by
  induction sched with
  | nil => intro cfg; simp [exec]
  | cons b rest ih =>
    intro cfg
    rw [exec_cons]
    have h := ih (schedStep p cfg b)
    cases b with
    | false =>
      rw [schedStep_false_r1] at h
      simpa [List.count_cons] using h
    | true =>
      rw [schedStep_true_r1] at h
      by_cases ht : cfg.r1.pc.isTerminal = true
      · have hfix := stepRun_fix_of_terminal p cfg.r1 cfg.db cfg.eng ht
        have hz : (cfg.r1.pc).rank = 0 := (PC.isTerminal_iff_rank _).mp ht
        rw [hfix] at h
        simp only [List.count_cons]
        simp at h
        omega
      · have hdec := stepRun_rank_decrease p cfg.r1 cfg.db cfg.eng
          (Bool.not_eq_true _ ▸ ht)
        simp [List.count_cons]
        omega

theorem exec_rank_r2 (p : String) (sched : List Bool) : ∀ cfg : CConfig,
    ((exec p cfg sched).r2.pc).rank ≤ (cfg.r2.pc).rank - sched.count false := by
  induction sched with
  | nil => intro cfg; simp [exec]
  | cons b rest ih =>
    intro cfg
    rw [exec_cons]
    have h := ih (schedStep p cfg b)
    cases b with
    | true =>
      rw [schedStep_true_r2] at h
      simpa [List.count_cons] using h
    | false =>
      rw [schedStep_false_r2] at h
      by_cases ht : cfg.r2.pc.isTerminal = true
      · have hfix := stepRun_fix_of_terminal p cfg.r2 cfg.db cfg.eng ht
        have hz : (cfg.r2.pc).rank = 0 := (PC.isTerminal_iff_rank _).mp ht
        rw [hfix] at h
        simp only [List.count_cons]
        simp at h
        omega
      · have hdec := stepRun_rank_decrease p cfg.r2 cfg.db cfg.eng
          (Bool.not_eq_true _ ▸ ht)
        simp [List.count_cons]
        omega

theorem exec_pastSignal_r1 (p : String) (sched : List Bool) : ∀ cfg : CConfig,
    cfg.r1.pastSignal → (exec p cfg sched).r1.pastSignal := by
  induction sched with
  | nil => intro cfg h; exact h
  | cons b rest ih =>
    intro cfg h
    rw [exec_cons]
    apply ih
    cases b with
    | true =>
      rw [schedStep_true_r1]
      exact stepRun_pastSignal p cfg.r1 cfg.db cfg.eng h
    | false =>
      rw [schedStep_false_r1]
      exact h

theorem exec_pastSignal_r2 (p : String) (sched : List Bool) : ∀ cfg : CConfig,
    cfg.r2.pastSignal → (exec p cfg sched).r2.pastSignal := by
  induction sched with
  | nil => intro cfg h; exact h
  | cons b rest ih =>
    intro cfg h
    rw [exec_cons]
    apply ih
    cases b with
    | true =>
      rw [schedStep_true_r2]
      exact h
    | false =>
      rw [schedStep_false_r2]
      exact stepRun_pastSignal p cfg.r2 cfg.db cfg.eng h

/-- The only token either concurrent run can ever successfully send: the
token originally stored under the job id both runs resolve from the shared
triggering event, if any. The store is only ever deleted from, never
updated, so this value can only disappear, never change. -/
def storedToken (p : String) (ev : Json) (db : Db) : Option String :=
  match resolveId p ev with
  | some id => dbLookup db id
  | none => none

/-- Per-run part of the concurrency invariant: before its lookup a run
still holds the shared input event, and at its signal state the token it
is about to read is either absent or the originally stored token `T`. -/
def RunInv (ev : Json) (T : Option String) (r : CRun) : Prop :=
  (r.pc = PC.atLookup → r.state = ev) ∧
  (r.pc = PC.atSignal →
    stringAt r.state tokenPath = none ∨ stringAt r.state tokenPath = T)

/-- Whole-configuration invariant for two concurrent runs on the same
event: both runs satisfy their run invariant, the store still holds the
original token or nothing under the shared job id, once any signal has
been accepted the token `T` is no longer outstanding, and at most one
signal has been accepted in total. -/
def ConfInv (p : String) (ev : Json) (T : Option String) (cfg : CConfig) : Prop :=
  RunInv ev T cfg.r1 ∧ RunInv ev T cfg.r2 ∧
  (∀ id, resolveId p ev = some id →
    dbLookup cfg.db id = none ∨ dbLookup cfg.db id = T) ∧
  (∀ t, T = some t → 1 ≤ cfg.r1.accepted + cfg.r2.accepted →
    containsToken cfg.eng t = false) ∧
  cfg.r1.accepted + cfg.r2.accepted ≤ 1

theorem stepRun_ConfInv (p : String) (ev : Json) (T : Option String) (r : CRun)
    (db : Db) (eng : Engine) (a2 : Nat) (hr : RunInv ev T r)
    (hdb : ∀ id, resolveId p ev = some id →
      dbLookup db id = none ∨ dbLookup db id = T)
    (heng : ∀ t, T = some t → 1 ≤ r.accepted + a2 → containsToken eng t = false)
    (hb : r.accepted + a2 ≤ 1) :
    RunInv ev T (stepRun p r db eng).1 ∧
    (∀ id, resolveId p ev = some id →
      dbLookup (stepRun p r db eng).2.1 id = none ∨
      dbLookup (stepRun p r db eng).2.1 id = T) ∧
    (∀ t, T = some t → 1 ≤ (stepRun p r db eng).1.accepted + a2 →
      containsToken (stepRun p r db eng).2.2 t = false) ∧
    (stepRun p r db eng).1.accepted + a2 ≤ 1 := by
  cases hpc : r.pc with
  | atLookup =>
    have hev : r.state = ev := hr.1 hpc
    simp only [stepRun, hpc, hev]
    cases hres : resolveId p ev with
    | none =>
      refine ⟨⟨fun h => by simp at h, fun h => by simp at h⟩, ?_, heng, hb⟩
      intro id h
      exact absurd h (by simp)
    | some id =>
      refine ⟨⟨fun h => by simp at h, fun _ => ?_⟩, ?_, heng, hb⟩
      · rcases tokenRead_after_lookup ev db id with h | h
        · exact Or.inl h
        · rcases hdb id hres with h2 | h2
          · exact Or.inl (h.trans h2)
          · exact Or.inr (h.trans h2)
      · intro id1 h
        exact hdb id1 (hres.trans h)
  | atSignal =>
    have hsig := hr.2 hpc
    simp only [stepRun, hpc]
    cases htok : stringAt r.state tokenPath with
    | none =>
      exact ⟨⟨fun h => by simp at h, fun h => by simp at h⟩, hdb, heng, hb⟩
    | some t =>
      have hT : T = some t := by
        rw [htok] at hsig
        rcases hsig with h | h
        · exact absurd h (by simp)
        · exact h.symm
      cases hc : containsToken eng t with
      | false =>
        simp only [sendTaskSuccessApi, hc, Bool.false_eq_true, if_false]
        exact ⟨⟨fun h => by simp at h, fun h => by simp at h⟩, hdb, heng, hb⟩
      | true =>
        have hzero : r.accepted + a2 = 0 := by
          by_contra hnz
          have hge : 1 ≤ r.accepted + a2 := by omega
          have hfalse := heng t hT hge
          rw [hc] at hfalse
          exact absurd hfalse (by simp)
        simp only [sendTaskSuccessApi, hc, if_true]
        refine ⟨⟨fun h => by simp at h, fun h => by simp at h⟩, hdb, ?_, by omega⟩
        intro t' hT' hge
        have htt : t = t' := Option.some.inj (hT.symm.trans hT')
        rw [← htt]
        exact containsToken_eraseToken_self eng t
  | atDelete =>
    simp only [stepRun, hpc]
    cases hres : resolveId p r.state with
    | none =>
      exact ⟨⟨fun h => by simp at h, fun h => by simp at h⟩, hdb, heng, hb⟩
    | some id2 =>
      refine ⟨⟨fun h => by simp at h, fun h => by simp at h⟩, ?_, heng, hb⟩
      intro id hid
      rcases dbLookup_deleteItem_cases db id2 id with h | h
      · exact Or.inl h
      · rw [h]
        exact hdb id hid
  | terminalOk =>
    simp only [stepRun, hpc]
    exact ⟨hr, hdb, heng, hb⟩
  | terminalFailed c =>
    simp only [stepRun, hpc]
    exact ⟨hr, hdb, heng, hb⟩

theorem schedStep_ConfInv (p : String) (ev : Json) (T : Option String)
    (cfg : CConfig) (b : Bool) (h : ConfInv p ev T cfg) :
    ConfInv p ev T (schedStep p cfg b) := by
  obtain ⟨hr1, hr2, hdb, heng, hb⟩ := h
  cases b with
  | true =>
    obtain ⟨c1, c2, c3, c4⟩ :=
      stepRun_ConfInv p ev T cfg.r1 cfg.db cfg.eng cfg.r2.accepted hr1 hdb heng hb
    refine ⟨?_, ?_, ?_, ?_, ?_⟩ <;> simp only [schedStep, if_true]
    · exact c1
    · exact hr2
    · exact c2
    · exact c3
    · exact c4
  | false =>
    have heng2 : ∀ t, T = some t → 1 ≤ cfg.r2.accepted + cfg.r1.accepted →
        containsToken cfg.eng t = false := by
      intro t ht hge
      exact heng t ht (by omega)
    obtain ⟨c1, c2, c3, c4⟩ :=
      stepRun_ConfInv p ev T cfg.r2 cfg.db cfg.eng cfg.r1.accepted hr2 hdb heng2
        (by omega)
    refine ⟨?_, ?_, ?_, ?_, ?_⟩ <;>
      simp only [schedStep, Bool.false_eq_true, if_false]
    · exact hr1
    · exact c1
    · exact c2
    · intro t ht hge
      exact c3 t ht (by omega)
    · omega

theorem exec_ConfInv (p : String) (ev : Json) (T : Option String)
    (sched : List Bool) : ∀ cfg : CConfig,
    ConfInv p ev T cfg → ConfInv p ev T (exec p cfg sched) := by
  induction sched with
  | nil => intro cfg h; exact h
  | cons b rest ih =>
    intro cfg h
    rw [exec_cons]
    exact ih _ (schedStep_ConfInv p ev T cfg b h)

theorem initConfig_ConfInv (p : String) (ev : Json) (db : Db) (eng : Engine) :
    ConfInv p ev (storedToken p ev db) (initConfig ev db eng) := by
  refine ⟨⟨fun _ => rfl, fun h => by simp [initConfig] at h⟩,
    ⟨fun _ => rfl, fun h => by simp [initConfig] at h⟩, ?_, ?_, ?_⟩
  · intro id hid
    right
    simp [initConfig, storedToken, hid]
  · intro t ht hge
    simp [initConfig] at hge
  · simp [initConfig]

/-- Counterexample to claim C6 as stated: with one stored record and one
outstanding token, the interleaving in which both runs perform their
lookup before either signals makes TWO engine signal calls (the second is
rejected); the non-winning run terminates failed at its signal state, not
in a graceful skipped state. -/
theorem concurrent_resume_two_calls_cex :
    (exec samplePath (initConfig sampleEvent [("job-42", "h1")] ["h1"])
        [true, false, true, false, true, false]).r1.calls +
      (exec samplePath (initConfig sampleEvent [("job-42", "h1")] ["h1"])
        [true, false, true, false, true, false]).r2.calls = 2 ∧
    (exec samplePath (initConfig sampleEvent [("job-42", "h1")] ["h1"])
        [true, false, true, false, true, false]).r1.pc = PC.terminalOk ∧
    (exec samplePath (initConfig sampleEvent [("job-42", "h1")] ["h1"])
        [true, false, true, false, true, false]).r2.pc =
      PC.terminalFailed FailCause.signalRejected ∧
    (exec samplePath (initConfig sampleEvent [("job-42", "h1")] ["h1"])
        [true, false, true, false, true, false]).db = [] := by
  decide

/-- Claim C6 as amended: for every interleaving of two concurrent resume
runs on the same event — whatever the store holds and however many task
tokens the engine holds outstanding for other suspended executions — both
runs reach a terminal state once each has been scheduled three times, at
most ONE signal call is accepted by the engine — though both runs may make
a call — and at most one of the two runs terminates successfully. Both
runs can only ever send the token originally stored under the shared job
id, and the engine consumes it at the first acceptance. -/
theorem concurrent_resume_signals (p : String) (ev : Json) (db : Db) (eng : Engine)
    (sched : List Bool) (h1 : 3 ≤ sched.count true) (h2 : 3 ≤ sched.count false) :
    ((exec p (initConfig ev db eng) sched).r1.pc).isTerminal = true ∧
    ((exec p (initConfig ev db eng) sched).r2.pc).isTerminal = true ∧
    (exec p (initConfig ev db eng) sched).r1.accepted +
      (exec p (initConfig ev db eng) sched).r2.accepted ≤ 1 ∧
    ¬((exec p (initConfig ev db eng) sched).r1.pc = PC.terminalOk ∧
      (exec p (initConfig ev db eng) sched).r2.pc = PC.terminalOk) := by
  obtain ⟨-, -, -, -, hacc⟩ :=
    exec_ConfInv p ev (storedToken p ev db) sched (initConfig ev db eng)
      (initConfig_ConfInv p ev db eng)
  have hrank1 := exec_rank_r1 p sched (initConfig ev db eng)
  have hrank2 := exec_rank_r2 p sched (initConfig ev db eng)
  rw [show ((initConfig ev db eng).r1.pc).rank = 3 from rfl] at hrank1
  rw [show ((initConfig ev db eng).r2.pc).rank = 3 from rfl] at hrank2
  have ht1 : ((exec p (initConfig ev db eng) sched).r1.pc).isTerminal = true :=
    (PC.isTerminal_iff_rank _).mpr (by omega)
  have ht2 : ((exec p (initConfig ev db eng) sched).r2.pc).isTerminal = true :=
    (PC.isTerminal_iff_rank _).mpr (by omega)
  refine ⟨ht1, ht2, hacc, ?_⟩
  rintro ⟨ho1, ho2⟩
  have hw1 : (exec p (initConfig ev db eng) sched).r1.pastSignal :=
    exec_pastSignal_r1 p sched (initConfig ev db eng) (by simp [initConfig, CRun.pastSignal])
  have hw2 : (exec p (initConfig ev db eng) sched).r2.pastSignal :=
    exec_pastSignal_r2 p sched (initConfig ev db eng) (by simp [initConfig, CRun.pastSignal])
  have ha1 : 1 ≤ (exec p (initConfig ev db eng) sched).r1.accepted := hw1 (Or.inr ho1)
  have ha2 : 1 ≤ (exec p (initConfig ev db eng) sched).r2.accepted := hw2 (Or.inr ho2)
  omega

/-- Witness for the amended C6 at the concrete two-call interleaving. -/
theorem concurrent_resume_signals_witness :
    ((exec samplePath
        (initConfig sampleEvent [("job-42", "h1"), ("job-7", "hA")] ["hA", "h1", "hB"])
        [true, false, true, false, true, false]).r1.pc).isTerminal = true ∧
    ((exec samplePath
        (initConfig sampleEvent [("job-42", "h1"), ("job-7", "hA")] ["hA", "h1", "hB"])
        [true, false, true, false, true, false]).r2.pc).isTerminal = true ∧
    (exec samplePath
        (initConfig sampleEvent [("job-42", "h1"), ("job-7", "hA")] ["hA", "h1", "hB"])
        [true, false, true, false, true, false]).r1.accepted +
      (exec samplePath
        (initConfig sampleEvent [("job-42", "h1"), ("job-7", "hA")] ["hA", "h1", "hB"])
        [true, false, true, false, true, false]).r2.accepted ≤ 1 ∧
    ¬((exec samplePath
        (initConfig sampleEvent [("job-42", "h1"), ("job-7", "hA")] ["hA", "h1", "hB"])
        [true, false, true, false, true, false]).r1.pc = PC.terminalOk ∧
      (exec samplePath
        (initConfig sampleEvent [("job-42", "h1"), ("job-7", "hA")] ["hA", "h1", "hB"])
        [true, false, true, false, true, false]).r2.pc = PC.terminalOk) :=
  concurrent_resume_signals samplePath sampleEvent
    [("job-42", "h1"), ("job-7", "hA")] ["hA", "h1", "hB"]
    [true, false, true, false, true, false] (by decide) (by decide)

end SfnResume
